import Mathlib

/-!
Shallow embedding of the pi-heater core (src/pkg/coil/coil.go: the `coil`
package Control Loop, temperature sensor decode, actuator pulse, frame
publication, and the websocket `hub` package Broadcast Hub, which lives in
the same source file after the coil code).

Conventions of the embedding:
* Go `float64` is modelled as `ℚ` (all operations used by the code —
  `+`, `*`, `/` by constants, `math.Abs`, comparisons — are exact on the
  values involved, so no rounding model is needed).
* Go `int64` milliseconds are `ℤ`; timestamps (`time.Now()`) are an abstract
  `ℕ` counter supplied with each tick event.
* Channel operations are made explicit.  A send on an unbuffered channel
  completes only when some other goroutine is at a matching receive.  In the
  whole repository the only receive on `c.Stop` is the `case <-c.Stop:` of
  the very `select` in `Coil.Run` (coil.go:187), and the only receive on
  `c.CurrentFrameChan` is in `Hub.Run` (coil.go hub part, line 294) and in
  the publish goroutine itself (coil.go:177).  Consequences of this are
  encoded where they arise and justified in the local comments.
* Effects the loop performs (spawning a pulse goroutine, publishing a frame,
  writing to the status device file, releasing the device handles) are
  recorded as explicit actions in an action trace.
-/

/-- coil.go:20 `MaxTempDiff float64 = 100.0` — the thermocouple-disconnect
threshold in calibrated units. -/
def MaxTempDiff : ℚ := 100

/-- The fixed safety margin subtracted from the PID output clamp maximum,
coil.go:92 `adjustedMax := float64(max - 15)`. -/
def safetyMarginMs : ℤ := 15

/-- Go conversion `int64(f)` / `time.Duration(f)` of a `float64` truncates
toward zero: `⌊q⌋` for nonnegative `q`, `-⌊-q⌋` for negative `q`. -/
def ratTrunc (q : ℚ) : ℤ := if 0 ≤ q then ⌊q⌋ else -⌊-q⌋

/-- The output clamp of the external PID controller, as the spec describes it
(§4.1: "clamps the result to `[min, max]`"), in the Go `if x > max … else if
x < min …` shape used by github.com/felixge/pidctrl. -/
def clampOut (outMin outMax x : ℚ) : ℚ :=
  if x > outMax then outMax else if x < outMin then outMin else x

/-- Modelled from the spec: the PID Controller is the external library
github.com/felixge/pidctrl, not part of src/.  Per §4.1 its `update` "applies
proportional + integral + derivative terms against the current setpoint and
the measurement history, then clamps the result to `[min, max]`".  The
term computation over the internal state `σ` is abstracted as `rawU`
(internal state, setpoint, measurement ↦ unclamped output, new internal
state); the clamp is explicit.  coil.go:93 installs the limits
`SetOutputLimits(0, adjustedMax)`. -/
def pidUpdate {σ : Type} (rawU : σ → ℚ → ℚ → ℚ × σ)
    (outMin outMax : ℚ) (st : σ) (target m : ℚ) : ℚ × σ :=
  let p := rawU st target m
  (clampOut outMin outMax p.1, p.2)

/-! ## Temperature sensor decode (coil.go:206-221, 240-242) -/

/-- coil.go:240-242 `trimTest`: a rune is trimmed iff it is not a number
rune.  `unicode.IsNumber` is Go-stdlib; it is passed in as `isNumber`. -/
def trimTest (isNumber : Char → Bool) (c : Char) : Bool := !(isNumber c)

/-- Go `strings.TrimRightFunc s f`: remove all trailing runes `c` with
`f c = true`. -/
def trimRightFunc (s : List Char) (f : Char → Bool) : List Char :=
  (s.reverse.dropWhile f).reverse

/-- The two fields of `Coil` that `updateTemp` writes (coil.go:50-51). -/
structure TempState where
  Temp : ℚ
  LastUpdated : ℕ
deriving DecidableEq, Repr

/-- coil.go:206-221 `Coil.updateTemp`.  `readBytes` models the outcome of
`c.tempf.Read(c.tempb)` (`none` = the read returned an error, `some bs` =
the bytes read); `parseFloat` models Go-stdlib `strconv.ParseFloat`
(`none` = parse error); `now` models `time.Now()`.  The returned `Bool` is
`true` iff the Go function returns a nil error.  The calibration transform
is coil.go:217 `c.Temp = ((9.0)/(20.0))*t + 32.0`. -/
def updateTemp (isNumber : Char → Bool) (parseFloat : List Char → Option ℚ)
    (st : TempState) (readBytes : Option (List Char)) (now : ℕ) :
    TempState × Bool :=
  match readBytes with
  | none => (st, false)
  | some bs =>
    match parseFloat (trimRightFunc bs (trimTest isNumber)) with
    | none => (st, false)
    | some t => (⟨9 / 20 * t + 32, now⟩, true)

/-! ## Control Loop state machine (coil.go:113-204) -/

/-- coil.go:23-29 `CoilFrame` (field names as in the source; `FrameStart` is
the abstract timestamp of the tick). -/
structure CoilFrame where
  Temp : ℚ
  Target : ℚ
  FrameStart : ℕ
  FrameDuration : ℤ
  FireTime : ℤ
deriving DecidableEq, Repr

/-- The state owned by the Control Loop goroutine, over an abstract PID
internal state `σ`: `temp`/`lastUpdated` are `c.Temp`/`c.LastUpdated`,
`nonInitialRun` is coil.go:43, `running` is `c.Running`, `fireTimeMs` is
`c.FireTime` in milliseconds, `pidTarget` is the setpoint held by `c.pid`
(read back by `c.pid.Get()`), `pidInternal` the rest of the PID state.
(`c.Firing` is written by the pulse goroutine, not by the loop, and is not
part of the loop model; `c.CurrentFrame` is written by the publish
goroutine.) -/
structure CoilState (σ : Type) where
  temp : ℚ
  lastUpdated : ℕ
  nonInitialRun : Bool
  running : Bool
  fireTimeMs : ℤ
  pidTarget : ℚ
  pidInternal : σ
deriving DecidableEq, Repr

/-- Static configuration of a run: the abstract PID term computation and
`PI_HEATER_PID_MAX` (= the window duration in ms, coil.go:98). -/
structure CoilCfg (σ : Type) where
  rawU : σ → ℚ → ℚ → ℚ × σ
  windowMs : ℤ

/-- The three event classes the `select` in `Coil.Run` (coil.go:133-202)
can receive: a timer tick (carrying the sensor-read outcome — already
decoded and parsed as in `updateTemp` — and the tick timestamp), an external
set-target command, and a stop request sent on `c.Stop`. -/
inductive CoilEvent
  | tick (read : Option ℚ) (now : ℕ)
  | setTarget (t : ℚ)
  | stopReq
deriving DecidableEq, Repr

/-- Effects the loop issues, in program order:
`spawnPulse` is `go func() { … c.OnOff(cancelOnOff, c.FireTime) … }()`
(coil.go:157), `publishFrame` the frame-publication goroutine
(coil.go:167), `cancelPulse` the send `cancelOnOff <- struct{}{}`
(coil.go:189), `writeStat` a write of one ASCII byte to the status device
file (coil.go:190), `releaseHandles` the deferred `statf.Close();
tempf.Close()` (coil.go:126-129) that runs when `Run` returns. -/
inductive CoilAction
  | spawnPulse (ms : ℤ)
  | publishFrame (f : CoilFrame)
  | cancelPulse
  | writeStat (b : Char)
  | releaseHandles
deriving DecidableEq, Repr

/-- Result of handling one tick (the `case <-clock:` body, coil.go:134-182).

`blockedSelfStop` embeds the Go semantics of the two statements
`c.pid.Set(0); c.Stop <- struct{}{}` at coil.go:139-140 and 146-147: the
send is executed by the loop goroutine itself on the unbuffered channel
`c.Stop`, whose only receive in the entire repository is the
`case <-c.Stop:` of this same goroutine's `select` (coil.go:187).  A
goroutine blocked in a send cannot simultaneously be at its own receive, and
no other goroutine ever receives from `c.Stop` (main and the pulse goroutine
only send), so the send never completes: the loop goroutine is permanently
blocked with the state it had at that point, and no further statement of the
tick body runs. -/
inductive StepResult (σ : Type)
  | next (s : CoilState σ) (acts : List CoilAction)
  | blockedSelfStop (s : CoilState σ) (acts : List CoilAction)

/-- The `case <-clock:` body, coil.go:134-182, statement by statement:
`oldTemp := c.Temp`; `c.updateTemp()` (on error: `pid.Set(0)` then the
self-blocking send, see `StepResult.blockedSelfStop`); the thermocouple
check `math.Abs(oldTemp-c.Temp) >= MaxTempDiff && c.nonInitialRun` (same
fault path); `c.nonInitialRun = true`; `c.FireTime =
time.Duration(c.pid.Update(c.Temp)) * time.Millisecond` (float → int64
truncates toward zero; the PID clamp limits are `[0, windowMs − 15]`,
coil.go:92-93); spawning the pulse goroutine with `c.FireTime`; and the
frame-publication goroutine building `CoilFrame` from `c.Temp`,
`c.pid.Get()`, `frameStart`, `c.window.Milliseconds()`,
`c.FireTime.Milliseconds()`. -/
def tickStep {σ : Type} (cfg : CoilCfg σ) (s : CoilState σ)
    (read : Option ℚ) (now : ℕ) : StepResult σ :=
  let oldTemp := s.temp
  match read with
  | none => .blockedSelfStop { s with pidTarget := 0 } []
  | some raw =>
    let s1 : CoilState σ := { s with temp := 9 / 20 * raw + 32, lastUpdated := now }
    if |oldTemp - s1.temp| ≥ MaxTempDiff ∧ s1.nonInitialRun = true then
      .blockedSelfStop { s1 with pidTarget := 0 } []
    else
      let s2 : CoilState σ := { s1 with nonInitialRun := true }
      let u := pidUpdate cfg.rawU 0 ((cfg.windowMs : ℚ) - 15) s2.pidInternal s2.pidTarget s2.temp
      let fire : ℤ := ratTrunc u.1
      let frame : CoilFrame :=
        { Temp := s2.temp, Target := s2.pidTarget, FrameStart := now,
          FrameDuration := cfg.windowMs, FireTime := fire }
      .next { s2 with fireTimeMs := fire, pidInternal := u.2 }
        [.spawnPulse fire, .publishFrame frame]

/-- The `case <-c.Stop:` body, coil.go:187-201: `c.pid.Set(0)`, send on
`cancelOnOff` (modelled as received by an in-flight pulse goroutine — the
normal path; when no pulse goroutine is at its `select` this send itself
blocks, a further defect outside the claims below), force-write `"0"` to the
status file (assumed to succeed; on error the code panics), `c.Running =
false`, `WaitGroup.Done()`, `return` — at which point the deferred handle
release (coil.go:126-129) runs. -/
def stopStep {σ : Type} (s : CoilState σ) : CoilState σ × List CoilAction :=
  ({ s with pidTarget := 0, running := false },
   [.cancelPulse, .writeStat '0', .releaseHandles])

/-- Outcome of running the loop on a list of events:
* `finished`: the loop processed a stop request and `Run` returned; `rest`
  are the events that were still pending — they are never received, because
  nothing receives on `c.Stop`/`c.SetTarget`/the ticker once `Run` has
  returned, so a sender of any request in `rest` blocks forever.
* `ranOut`: all supplied events processed, loop still running.
* `blocked`: the loop goroutine is permanently blocked in a self-send on
  `c.Stop` (see `StepResult.blockedSelfStop`); `rest` are the never-received
  pending events. -/
inductive RunOutcome (σ : Type)
  | finished (s : CoilState σ) (acts : List CoilAction) (rest : List CoilEvent)
  | ranOut (s : CoilState σ) (acts : List CoilAction)
  | blocked (s : CoilState σ) (acts : List CoilAction) (rest : List CoilEvent)
deriving DecidableEq, Repr

/-- Prefix earlier actions onto an outcome's trace. -/
def RunOutcome.withActs {σ : Type} (a : List CoilAction) :
    RunOutcome σ → RunOutcome σ
  | .finished s b r => .finished s (a ++ b) r
  | .ranOut s b => .ranOut s (a ++ b)
  | .blocked s b r => .blocked s (a ++ b) r

/-- The action trace of an outcome. -/
def RunOutcome.acts {σ : Type} : RunOutcome σ → List CoilAction
  | .finished _ a _ => a
  | .ranOut _ a => a
  | .blocked _ a _ => a

/-- The loop state an outcome ends in. -/
def RunOutcome.state {σ : Type} : RunOutcome σ → CoilState σ
  | .finished s _ _ => s
  | .ranOut s _ => s
  | .blocked s _ _ => s

/-- The pending events never received (empty unless the loop finished or
blocked). -/
def RunOutcome.rest {σ : Type} : RunOutcome σ → List CoilEvent
  | .finished _ _ r => r
  | .ranOut _ _ => []
  | .blocked _ _ r => r

/-- `true` iff the outcome is a permanent block in a self-send on `c.Stop`. -/
def RunOutcome.isBlocked {σ : Type} : RunOutcome σ → Bool
  | .blocked _ _ _ => true
  | _ => false

/-- The `for c.Running { select { … } }` loop of `Coil.Run`
(coil.go:132-203), driven by the sequence of events it receives, one at a
time (a Go `select` processes a single communication per iteration). -/
def coilRun {σ : Type} (cfg : CoilCfg σ) (s : CoilState σ) :
    List CoilEvent → RunOutcome σ
  | [] => .ranOut s []
  | .tick read now :: es =>
    match tickStep cfg s read now with
    | .next s' a => (coilRun cfg s' es).withActs a
    | .blockedSelfStop s' a => .blocked s' a es
  | .setTarget t :: es => coilRun cfg { s with pidTarget := t } es
  | .stopReq :: es =>
    let p := stopStep s
    .finished p.1 p.2 es

/-- The loop state at entry of `Coil.Run`: Go zero values for the fields of
`Coil` (coil.go:58-68) plus `c.Running = true` set at coil.go:124. -/
def coilInit {σ : Type} (pid0 : σ) : CoilState σ :=
  { temp := 0, lastUpdated := 0, nonInitialRun := false, running := true,
    fireTimeMs := 0, pidTarget := 0, pidInternal := pid0 }

/-- A concrete PID term computation (proportional-only, gain 1, no internal
state) used to evaluate the model on closed inputs. -/
def rawU0 : Unit → ℚ → ℚ → ℚ × Unit := fun _ t m => (t - m, ())

/-- Concrete configuration: `PI_HEATER_PID_MAX = 1000` ms. -/
def cfg0 : CoilCfg Unit := ⟨rawU0, 1000⟩

/-- Concrete initial state. -/
def init0 : CoilState Unit := coilInit ()

/-! ## Frame Bus (coil.go:67, 166-182; consumed by Hub.Run, hub part line 294)

`c.CurrentFrameChan` is created unbuffered (coil.go:67
`make(chan CoilFrame)`).  Every tick spawns a fresh publish goroutine
(coil.go:167-182) which runs

```
select {
case <-c.CurrentFrameChan:        // receive (value discarded) …
    c.CurrentFrameChan <- frame   // … then a plain send of its own frame
case c.CurrentFrameChan <- frame: // send its own frame
}
```

On an unbuffered channel each communication is a rendezvous between one
sender and one receiver.  The possible partners of a publish goroutine are
the Hub's `frame := <-h.coil.CurrentFrameChan` receive and the send/receive
cases of the other publish goroutines.  The transition system below ranges
over exactly these rendezvous.  A publisher is `selecting` while in the
`select` (its send and its receive are both armed) and `sending` while in
the plain send after having flushed.  `published` records the frames in
tick (publish-call) order; `delivered` records the frames in the order the
Hub receives them.  Frames are identified by `ℕ` tags. -/
structure BusState where
  selecting : List ℕ
  sending : List ℕ
  published : List ℕ
  delivered : List ℕ
deriving DecidableEq, Repr

/-- One rendezvous (or one new tick's publish-goroutine spawn) of the Frame
Bus.  `publish` spawns a new publish goroutine.  `hubRecvSelecting` /
`hubRecvSending` are the Hub's receive pairing with the armed send of a
publisher in the respective mode (on an unbuffered channel the runtime may
pair the receiver with ANY blocked sender).  `flushRecv*` pair a selecting
publisher's receive with another publisher's armed send: the received frame
is discarded (the value of `case <-c.CurrentFrameChan:` is dropped), the
sender completes, and the receiver moves on to its plain send. -/
inductive BusStep : BusState → BusState → Prop
  | publish (f : ℕ) (s : BusState) :
      BusStep s ⟨f :: s.selecting, s.sending, s.published ++ [f], s.delivered⟩
  | hubRecvSelecting (l1 l2 : List ℕ) (f : ℕ) (s : BusState)
      (h : s.selecting = l1 ++ f :: l2) :
      BusStep s ⟨l1 ++ l2, s.sending, s.published, s.delivered ++ [f]⟩
  | hubRecvSending (l1 l2 : List ℕ) (f : ℕ) (s : BusState)
      (h : s.sending = l1 ++ f :: l2) :
      BusStep s ⟨s.selecting, l1 ++ l2, s.published, s.delivered ++ [f]⟩
  | flushRecvFromSelecting (l1 l2 l3 : List ℕ) (fr g : ℕ) (s : BusState)
      (h : s.selecting = l1 ++ fr :: l2 ++ g :: l3) :
      BusStep s ⟨l1 ++ l2 ++ l3, fr :: s.sending, s.published, s.delivered⟩
  | flushRecvFromSelecting' (l1 l2 l3 : List ℕ) (g fr : ℕ) (s : BusState)
      (h : s.selecting = l1 ++ g :: l2 ++ fr :: l3) :
      BusStep s ⟨l1 ++ l2 ++ l3, fr :: s.sending, s.published, s.delivered⟩
  | flushRecvFromSending (l1 l2 m1 m2 : List ℕ) (fr g : ℕ) (s : BusState)
      (hr : s.selecting = l1 ++ fr :: l2) (hs : s.sending = m1 ++ g :: m2) :
      BusStep s ⟨l1 ++ l2, fr :: (m1 ++ m2), s.published, s.delivered⟩

/-- Reflexive-transitive closure of `BusStep`: states the Frame Bus can
reach. -/
inductive BusReach : BusState → BusState → Prop
  | refl (s : BusState) : BusReach s s
  | tail (a b c : BusState) : BusReach a b → BusStep b c → BusReach a c

/-! ## Broadcast Hub (hub part of the source file) -/

/-- A message on a subscriber queue: the once-serialized frame payload
(`payload, _ := json.Marshal(&frame)`, hub line 295) or the final
`[]byte("server process killed")` notice (hub line 311). -/
inductive HubMsg
  | framePayload (f : CoilFrame)
  | killedNotice
deriving DecidableEq, Repr

/-- A registered subscriber: `cid` models the identity of the `*Client`
pointer (the key of the `clients` map), `send` the contents of its buffered
channel `make(chan []byte, 256)` (hub `ServeHTTP`, line 331). -/
structure Client where
  cid : ℕ
  send : List HubMsg
deriving DecidableEq, Repr

/-- The capacity of a subscriber queue, hub line 331. -/
def queueCapacity : ℕ := 256

/-- The non-blocking enqueue attempt of `Hub.Run`'s frame case (hub lines
300-305): `select { case client.send <- payload: default: close(client.send);
delete(h.clients, client) }`.  `some` = enqueued; `none` = the queue is full,
the subscriber is evicted (queue closed, removed from the registry).
(A concurrently waiting drain task could also accept the message; that only
frees queue space, so the capacity bound is unaffected.) -/
def trySend (c : Client) (m : HubMsg) : Option Client :=
  if c.send.length < queueCapacity then some { c with send := c.send ++ [m] }
  else none

/-- The whole frame case of `Hub.Run` (hub lines 294-307): serialize once,
then attempt delivery to every registered subscriber, evicting exactly those
whose queue is full. -/
def hubBroadcast (m : HubMsg) (cs : List Client) : List Client :=
  cs.filterMap (fun c => trySend c m)

/-- The events `Hub.Run`'s `select` (hub lines 284-318) can receive. -/
inductive HubEvent
  | registerClient (c : Client)
  | unregisterClient (cid : ℕ)
  | frameArrival (f : CoilFrame)
  | stopReq
deriving DecidableEq, Repr

/-- Observable hub effects: `closeSend cid` is `close(client.send)`. -/
inductive HubAction
  | closeSend (cid : ℕ)
deriving DecidableEq, Repr

/-- Per-client part of the hub stop case (hub lines 309-315): best-effort
non-blocking enqueue of the final notice (skipped when the queue is full),
before the queue is closed. -/
def hubStopClient (c : Client) : Client :=
  if c.send.length < queueCapacity then { c with send := c.send ++ [HubMsg.killedNotice] }
  else c

/-- Outcome of the hub run loop, mirroring `RunOutcome`: after the stop case
sets `h.running = false` and `Run` returns, nothing receives on
`h.register`/`h.unregister`/`h.Stop` any more, so the events in `rest` are
never received and their senders block forever. -/
inductive HubOutcome
  | finished (cs : List Client) (acts : List HubAction) (rest : List HubEvent)
  | ranOut (cs : List Client) (acts : List HubAction)
deriving DecidableEq, Repr

/-- Prefix earlier actions onto a hub outcome's trace. -/
def HubOutcome.withActs (a : List HubAction) : HubOutcome → HubOutcome
  | .finished cs b r => .finished cs (a ++ b) r
  | .ranOut cs b => .ranOut cs (a ++ b)

/-- The pending events a hub outcome never received. -/
def HubOutcome.rest : HubOutcome → List HubEvent
  | .finished _ _ r => r
  | .ranOut _ _ => []

/-- The `for h.running { select { … } }` loop of `Hub.Run` (hub lines
283-319), driven by the events it receives: register appends to the
registry; unregister removes a present client and closes its queue; a frame
from the Frame Bus is broadcast with eviction of exactly the full-queue
subscribers; stop enqueues the final notice best-effort, closes every queue
and leaves the loop. -/
def hubRun (cs : List Client) : List HubEvent → HubOutcome
  | [] => .ranOut cs []
  | .registerClient c :: es => hubRun (cs ++ [c]) es
  | .unregisterClient cid :: es =>
    if cs.any (fun c => c.cid == cid) then
      (hubRun (cs.filter (fun c => c.cid != cid)) es).withActs [.closeSend cid]
    else hubRun cs es
  | .frameArrival f :: es =>
    let evicted := cs.filter (fun c => decide (queueCapacity ≤ c.send.length))
    (hubRun (hubBroadcast (.framePayload f) cs) es).withActs
      (evicted.map (fun c => HubAction.closeSend c.cid))
  | .stopReq :: es =>
    .finished (cs.map hubStopClient) (cs.map (fun c => HubAction.closeSend c.cid)) es

/-! ## Concrete instances used to evaluate the model on closed inputs -/

/-- `true` iff an action is a frame publication. -/
def CoilAction.isPublish : CoilAction → Bool
  | .publishFrame _ => true
  | _ => false

/-- `true` iff an action is a write to the status device file. -/
def CoilAction.isWriteStat : CoilAction → Bool
  | .writeStat _ => true
  | _ => false

/-- A concrete stand-in for Go-stdlib `unicode.IsNumber` on the ASCII digits
a device file produces. -/
def isNum0 : Char → Bool := Char.isDigit

/-- A concrete stand-in for Go-stdlib `strconv.ParseFloat`, defined on the
one token used in the closed evaluations. -/
def parse0 : List Char → Option ℚ :=
  fun s => if s = ['7', '0'] then some 70 else none

/-- Event sequence of the spec's read-failure scenario: three successful
ticks, a failing read on tick 4, then an external stop request. -/
def evC3 : List CoilEvent :=
  [.setTarget 200, .tick (some 40) 0, .tick (some 60) 1, .tick (some 80) 2,
   .tick none 3, .stopReq]

/-- Event sequence with an implausible jump: calibrated temperature goes
50 → 167 (|Δ| = 117 ≥ 100) on the second tick; an external stop request is
pending afterwards. -/
def evC4 : List CoilEvent := [.tick (some 40) 0, .tick (some 300) 1, .stopReq]

/-- Three registered subscribers; subscriber 2's queue is full (256
un-drained messages). -/
def clientsW : List Client :=
  [⟨1, []⟩, ⟨2, List.replicate 256 HubMsg.killedNotice⟩, ⟨3, []⟩]

/-- The loop state after one successful tick (reading 40 → 50 calibrated)
followed by a processed stop request. -/
def sW : CoilState Unit := ⟨50, 0, true, false, 0, 0, ()⟩

/-- The action trace of that same run. -/
def aW : List CoilAction :=
  [.spawnPulse 0, .publishFrame ⟨50, 0, 0, 1000, 0⟩, .cancelPulse,
   .writeStat '0', .releaseHandles]

/-! ## Helper lemmas -/

theorem clampOut_nonneg {hi x : ℚ} (h : 0 ≤ hi) : 0 ≤ clampOut 0 hi x := by
  unfold clampOut
  split
  · exact h
  · split
    · exact le_refl 0
    · exact le_of_not_lt (by assumption)

theorem clampOut_le {hi x : ℚ} (h : 0 ≤ hi) : clampOut 0 hi x ≤ hi := by
  unfold clampOut
  split
  · exact le_refl hi
  · split
    · exact h
    · exact le_of_not_lt (by assumption)

theorem ratTrunc_bounds {q : ℚ} {B : ℤ} (h0 : 0 ≤ q) (hB : q ≤ (B : ℚ)) :
    0 ≤ ratTrunc q ∧ ratTrunc q ≤ B := by
  unfold ratTrunc
  rw [if_pos h0]
  refine ⟨Int.le_floor.mpr (by exact_mod_cast h0), ?_⟩
  calc ⌊q⌋ ≤ ⌊(B : ℚ)⌋ := Int.floor_le_floor hB
    _ = B := Int.floor_intCast B

theorem acts_withActs {σ : Type} (a : List CoilAction) (o : RunOutcome σ) :
    (o.withActs a).acts = a ++ o.acts := by
  cases o <;> rfl

/-- Every frame a successful tick hands to the publish goroutine satisfies
the fire-time bounds. -/
theorem tickStep_publish_bounds {σ : Type} (cfg : CoilCfg σ)
    (h15 : safetyMarginMs ≤ cfg.windowMs) (s : CoilState σ) (read : Option ℚ)
    (now : ℕ) (s' : CoilState σ) (a : List CoilAction) (f : CoilFrame)
    (hstep : tickStep cfg s read now = .next s' a)
    (hf : CoilAction.publishFrame f ∈ a) :
    0 ≤ f.FireTime ∧ f.FireTime ≤ f.FrameDuration - safetyMarginMs ∧
      f.FrameDuration = cfg.windowMs := by
  have hq : (0 : ℚ) ≤ (cfg.windowMs : ℚ) - 15 := by
    have : ((15 : ℤ) : ℚ) ≤ (cfg.windowMs : ℚ) := by
      exact_mod_cast h15
    push_cast at this ⊢
    linarith
  cases read with
  | none => simp [tickStep] at hstep
  | some raw =>
    by_cases hc : |s.temp - (9 / 20 * raw + 32)| ≥ MaxTempDiff ∧ s.nonInitialRun = true
    · simp [tickStep, hc] at hstep
    · simp only [tickStep, if_neg hc] at hstep
      obtain ⟨hs', ha⟩ : _ ∧ _ := by
        injection hstep with h1 h2
        exact ⟨h1, h2⟩
      subst ha
      simp only [List.mem_cons, List.not_mem_nil, or_false] at hf
      rcases hf with hf | hf
      · exact absurd hf (by simp)
      · have hfe := CoilAction.publishFrame.inj hf
        subst hfe
        dsimp only [pidUpdate]
        have hB :
            clampOut 0 ((cfg.windowMs : ℚ) - 15)
                (cfg.rawU s.pidInternal s.pidTarget (9 / 20 * raw + 32)).1 ≤
              ((cfg.windowMs - safetyMarginMs : ℤ) : ℚ) := by
          have h1 := clampOut_le
            (x := (cfg.rawU s.pidInternal s.pidTarget (9 / 20 * raw + 32)).1) hq
          have h2 : ((cfg.windowMs - safetyMarginMs : ℤ) : ℚ) = (cfg.windowMs : ℚ) - 15 := by
            push_cast [safetyMarginMs]
            ring
          rw [h2]
          exact h1
        obtain ⟨hb1, hb2⟩ := ratTrunc_bounds (clampOut_nonneg hq) hB
        exact ⟨hb1, hb2, rfl⟩

/-- A tick that takes a fault path performs no effects: the loop blocks
before spawning a pulse or publishing a frame. -/
theorem tickStep_blocked_acts {σ : Type} (cfg : CoilCfg σ) (s : CoilState σ)
    (read : Option ℚ) (now : ℕ) (s' : CoilState σ) (a : List CoilAction)
    (h : tickStep cfg s read now = .blockedSelfStop s' a) : a = [] := by
  cases read with
  | none =>
    simp only [tickStep] at h
    injection h with h1 h2
    exact h2.symm
  | some raw =>
    by_cases hc : |s.temp - (9 / 20 * raw + 32)| ≥ MaxTempDiff ∧ s.nonInitialRun = true
    · simp only [tickStep, if_pos hc] at h
      injection h with h1 h2
      exact h2.symm
    · simp only [tickStep, if_neg hc] at h
      cases h

/-- Fire-time bounds hold for every frame published anywhere in a run, from
any starting state. -/
theorem coilRun_frame_bounds {σ : Type} (cfg : CoilCfg σ)
    (h15 : safetyMarginMs ≤ cfg.windowMs) :
    ∀ (es : List CoilEvent) (s : CoilState σ) (f : CoilFrame),
      CoilAction.publishFrame f ∈ (coilRun cfg s es).acts →
      0 ≤ f.FireTime ∧ f.FireTime ≤ f.FrameDuration - safetyMarginMs ∧
        f.FrameDuration = cfg.windowMs := by
  intro es
  induction es with
  | nil =>
    intro s f hf
    simp [coilRun, RunOutcome.acts] at hf
  | cons e es ih =>
    intro s f hf
    cases e with
    | tick read now =>
      simp only [coilRun] at hf
      cases hts : tickStep cfg s read now with
      | next s' a =>
        rw [hts] at hf
        rw [acts_withActs] at hf
        rcases List.mem_append.mp hf with hin | hin
        · exact tickStep_publish_bounds cfg h15 s read now s' a f hts hin
        · exact ih s' f hin
      | blockedSelfStop s' a =>
        rw [hts] at hf
        rw [tickStep_blocked_acts cfg s read now s' a hts] at hf
        simp [RunOutcome.acts] at hf
    | setTarget t =>
      simp only [coilRun] at hf
      exact ih _ f hf
    | stopReq =>
      simp only [coilRun, stopStep, RunOutcome.acts] at hf
      simp at hf

/-- Events still pending when the Control Loop's `Run` returns are never
received: appending further events to a finished run leaves state and action
trace unchanged and only grows the never-received remainder. -/
theorem coilRun_unreceived_append {σ : Type} (cfg : CoilCfg σ) :
    ∀ (es : List CoilEvent) (s st : CoilState σ) (a : List CoilAction)
      (r ex : List CoilEvent),
      coilRun cfg s es = .finished st a r →
      coilRun cfg s (es ++ ex) = .finished st a (r ++ ex) := by
  intro es
  induction es with
  | nil =>
    intro s st a r ex h
    simp [coilRun] at h
  | cons e es ih =>
    intro s st a r ex h
    cases e with
    | tick read now =>
      simp only [coilRun, List.cons_append, List.append_eq] at h ⊢
      cases hts : tickStep cfg s read now with
      | next s' a' =>
        rw [hts] at h
        dsimp only [List.append_eq] at h ⊢
        cases ho : coilRun cfg s' es with
        | finished st0 b r0 =>
          rw [ho] at h
          simp only [RunOutcome.withActs] at h
          injection h with h1 h2 h3
          rw [ih s' st0 b r0 ex ho]
          simp only [RunOutcome.withActs]
          rw [h1, h2, h3]
        | ranOut st0 b =>
          rw [ho] at h
          simp [RunOutcome.withActs] at h
        | blocked st0 b r0 =>
          rw [ho] at h
          simp [RunOutcome.withActs] at h
      | blockedSelfStop s' a' =>
        rw [hts] at h
        dsimp only at h
        cases h
    | setTarget t =>
      simp only [coilRun, List.cons_append, List.append_eq] at h ⊢
      exact ih _ st a r ex h
    | stopReq =>
      simp only [coilRun, List.cons_append, List.append_eq] at h ⊢
      injection h with h1 h2 h3
      rw [h1, h2, h3]

/-- Same as `coilRun_unreceived_append`, for the Broadcast Hub. -/
theorem hubRun_unreceived_append :
    ∀ (es : List HubEvent) (cs cs' : List Client) (a : List HubAction)
      (r ex : List HubEvent),
      hubRun cs es = .finished cs' a r →
      hubRun cs (es ++ ex) = .finished cs' a (r ++ ex) := by
  intro es
  induction es with
  | nil =>
    intro cs cs' a r ex h
    simp [hubRun] at h
  | cons e es ih =>
    intro cs cs' a r ex h
    cases e with
    | registerClient c =>
      simp only [hubRun, List.cons_append, List.append_eq] at h ⊢
      exact ih _ cs' a r ex h
    | unregisterClient cid =>
      simp only [hubRun, List.cons_append, List.append_eq] at h ⊢
      by_cases hp : cs.any (fun c => c.cid == cid)
      · rw [if_pos hp] at h ⊢
        cases ho : hubRun (cs.filter (fun c => c.cid != cid)) es with
        | finished cs0 b r0 =>
          rw [ho] at h
          simp only [HubOutcome.withActs] at h
          injection h with h1 h2 h3
          rw [ih _ cs0 b r0 ex ho]
          simp only [HubOutcome.withActs]
          rw [h1, h2, h3]
        | ranOut cs0 b =>
          rw [ho] at h
          simp [HubOutcome.withActs] at h
      · rw [if_neg hp] at h ⊢
        exact ih _ cs' a r ex h
    | frameArrival f =>
      simp only [hubRun, List.cons_append, List.append_eq] at h ⊢
      cases ho : hubRun (hubBroadcast (.framePayload f) cs) es with
      | finished cs0 b r0 =>
        rw [ho] at h
        simp only [HubOutcome.withActs] at h
        injection h with h1 h2 h3
        rw [ih _ cs0 b r0 ex ho]
        simp only [HubOutcome.withActs]
        rw [h1, h2, h3]
      | ranOut cs0 b =>
        rw [ho] at h
        simp [HubOutcome.withActs] at h
    | stopReq =>
      simp only [hubRun, List.cons_append, List.append_eq] at h ⊢
      injection h with h1 h2 h3
      rw [h1, h2, h3]

/-! ## Claim theorems -/

/-- C1: the claim says an internally requested fault-stop is issued through
an asynchronous or non-blocking path, never by synchronously sending on the
channel the loop itself is the receiver of.  The code does exactly the
forbidden thing: on a failed sensor read the loop executes
`c.Stop <- struct{}{}` (coil.go:140) on the unbuffered `Stop` channel whose
only receiver is the loop's own `select`, so the loop blocks forever — it
stays `running`, publishes nothing, performs no further effect, and even a
later external stop request (the trailing `rest` event) is never received. -/
theorem C1_fault_stop_self_deadlocks :
    coilRun cfg0 init0 [.setTarget 150, .tick none 0, .stopReq] =
      .blocked { init0 with pidTarget := 0 } [] [CoilEvent.stopReq] ∧
    ({ init0 with pidTarget := 0 } : CoilState Unit).running = true := by
  constructor
  · simp [coilRun, tickStep, init0, coilInit]
  · rfl

/-- C2: the claim says that before issuing a new actuator write the loop
awaits or cancels the previous tick's pulse.  The full action trace of two
consecutive successful ticks refutes this: the loop emits two `spawnPulse`
actions (one `go c.OnOff(...)` per tick, coil.go:157) with no `cancelPulse`
between them — and the code contains no await of the pulse goroutine at all
(`cancelOnOff` is sent only in the stop case, coil.go:189) — so the two
`OnOff` goroutines run unsynchronized against the same device handle. -/
theorem C2_pulse_goroutines_unsynchronized :
    coilRun cfg0 init0 [.setTarget 200, .tick (some 40) 0, .tick (some 60) 1] =
      .ranOut ⟨59, 1, true, true, 141, 200, ()⟩
        [.spawnPulse 150, .publishFrame ⟨50, 200, 0, 1000, 150⟩,
         .spawnPulse 141, .publishFrame ⟨59, 200, 1, 1000, 141⟩] := by
  simp only [coilRun, tickStep, stopStep, pidUpdate, clampOut, ratTrunc, MaxTempDiff,
    cfg0, init0, coilInit, rawU0, RunOutcome.withActs]
  norm_num

/-- C3: on a tick whose sensor read fails, the claim (and the spec's
scenario) says the loop forces the setpoint to 0, requests a fault-stop and
— having published the previous ticks' frames (3 of them here) — ends
`Stopped`.  In the code the setpoint is forced to 0 and nothing further
happens that tick (no fault check, no PID update, no pulse, no frame), but
only because the loop is permanently blocked in the self-send on `Stop`
(coil.go:140): it never transitions to `Stopped`, stays `running`, never
releases its handles, and the pending external stop request is never
received. -/
theorem C3_read_fault_blocks_instead_of_stopping :
    (coilRun cfg0 init0 evC3).isBlocked = true ∧
    ((coilRun cfg0 init0 evC3).acts.filter CoilAction.isPublish).length = 3 ∧
    (coilRun cfg0 init0 evC3).state.running = true ∧
    (coilRun cfg0 init0 evC3).state.pidTarget = 0 ∧
    (coilRun cfg0 init0 evC3).rest = [CoilEvent.stopReq] := by
  refine ⟨?_, ?_, ?_, ?_, ?_⟩ <;>
    norm_num [evC3, coilRun, tickStep, stopStep, pidUpdate, clampOut, ratTrunc,
      MaxTempDiff, cfg0, init0, coilInit, rawU0, RunOutcome.withActs,
      RunOutcome.isBlocked, RunOutcome.acts, RunOutcome.state, RunOutcome.rest,
      CoilAction.isPublish, List.filter]

/-- C4: on an implausible jump (|Δ| ≥ 100, not the first sample) the claim
says the loop forces the setpoint to 0, requests a fault-stop, transitions
to `Stopped` and leaves the actuator off.  The code detects the jump
(50 → 167 on the second tick) and forces the setpoint to 0, but then blocks
forever in the self-send on `Stop` (coil.go:147): `running` stays true, the
loop never writes the actuator off (`writeStat` count is 0), and the pending
external stop request is never received.  The final conjunct checks the
claim's guard: a first-sample jump (0 → 167) does NOT trigger the check. -/
theorem C4_jump_detected_but_loop_never_stops :
    (coilRun cfg0 init0 evC4).isBlocked = true ∧
    (coilRun cfg0 init0 evC4).state.running = true ∧
    (coilRun cfg0 init0 evC4).state.pidTarget = 0 ∧
    ((coilRun cfg0 init0 evC4).acts.filter CoilAction.isWriteStat).length = 0 ∧
    (coilRun cfg0 init0 evC4).rest = [CoilEvent.stopReq] ∧
    (coilRun cfg0 init0 [.tick (some 300) 0]).isBlocked = false := by
  refine ⟨?_, ?_, ?_, ?_, ?_, ?_⟩ <;>
    norm_num [evC4, coilRun, tickStep, stopStep, pidUpdate, clampOut, ratTrunc,
      MaxTempDiff, cfg0, init0, coilInit, rawU0, RunOutcome.withActs,
      RunOutcome.isBlocked, RunOutcome.acts, RunOutcome.state, RunOutcome.rest,
      CoilAction.isWriteStat, List.filter]

/-- C5: for all sequences of events processed by the Control Loop (started
from its initial state, with any PID term computation and any window
duration of at least the 15 ms safety margin), every published frame
satisfies `0 ≤ fireTimeMs ≤ windowDurationMs − safetyMarginMs`, and its
`FrameDuration` is the configured window duration. -/
theorem C5_fireTime_bounds {σ : Type} (cfg : CoilCfg σ) (pid0 : σ)
    (h15 : safetyMarginMs ≤ cfg.windowMs) (es : List CoilEvent) (f : CoilFrame)
    (hf : CoilAction.publishFrame f ∈ (coilRun cfg (coilInit pid0) es).acts) :
    0 ≤ f.FireTime ∧ f.FireTime ≤ f.FrameDuration - safetyMarginMs ∧
      f.FrameDuration = cfg.windowMs :=
  coilRun_frame_bounds cfg h15 es (coilInit pid0) f hf

/-- A frame concretely published in a one-tick run (used to discharge the
membership hypothesis of the C5 witness). -/
theorem publishFrame_mem_example :
    CoilAction.publishFrame ⟨50, 200, 0, 1000, 150⟩ ∈
      (coilRun cfg0 (coilInit ()) [.setTarget 200, .tick (some 40) 0]).acts := by
  norm_num [coilRun, tickStep, pidUpdate, clampOut, ratTrunc, cfg0, coilInit, rawU0,
    MaxTempDiff, RunOutcome.acts, RunOutcome.withActs]

/-- Witness for C5 at a concrete input: window 1000 ms, one tick, published
fire time 150 ms, bounds 0 ≤ 150 ≤ 1000 − 15. -/
theorem C5_fireTime_bounds_witness :
    (safetyMarginMs ≤ cfg0.windowMs ∧
      CoilAction.publishFrame ⟨50, 200, 0, 1000, 150⟩ ∈
        (coilRun cfg0 (coilInit ()) [.setTarget 200, .tick (some 40) 0]).acts) ∧
    (0 ≤ (⟨50, 200, 0, 1000, 150⟩ : CoilFrame).FireTime ∧
      (⟨50, 200, 0, 1000, 150⟩ : CoilFrame).FireTime ≤
        (⟨50, 200, 0, 1000, 150⟩ : CoilFrame).FrameDuration - safetyMarginMs ∧
      (⟨50, 200, 0, 1000, 150⟩ : CoilFrame).FrameDuration = cfg0.windowMs) :=
  ⟨⟨by decide, publishFrame_mem_example⟩,
    C5_fireTime_bounds cfg0 () (by decide) _ _ publishFrame_mem_example⟩

/-- C6: the claim says no frame is ever delivered to the Hub out of publish
order (and that the bus is a single-slot replace).  The unbuffered
`CurrentFrameChan` with one goroutine per publish admits this reachable
execution: frame 1's publisher blocks in its `select`; frame 2 is published;
the Hub's receive pairs with frame 2's armed send first and with frame 1's
afterwards, delivering `[2, 1]` for publish order `[1, 2]` — which is not an
order-preserving subsequence of the publish order. -/
theorem C6_frames_delivered_out_of_order :
    BusReach ⟨[], [], [], []⟩ ⟨[], [], [1, 2], [2, 1]⟩ ∧
    ¬ List.Sublist ([2, 1] : List ℕ) [1, 2] := by
  constructor
  · have s1 : BusStep ⟨[], [], [], []⟩ ⟨[1], [], [1], []⟩ := BusStep.publish 1 _
    have s2 : BusStep ⟨[1], [], [1], []⟩ ⟨[2, 1], [], [1, 2], []⟩ := BusStep.publish 2 _
    have s3 : BusStep ⟨[2, 1], [], [1, 2], []⟩ ⟨[1], [], [1, 2], [2]⟩ :=
      BusStep.hubRecvSelecting [] [1] 2 _ rfl
    have s4 : BusStep ⟨[1], [], [1, 2], [2]⟩ ⟨[], [], [1, 2], [2, 1]⟩ :=
      BusStep.hubRecvSelecting [] [] 1 _ rfl
    exact .tail _ _ _ (.tail _ _ _ (.tail _ _ _ (.tail _ _ _ (.refl _) s1) s2) s3) s4
  · intro h
    have := h.eq_of_length rfl
    simp at this

/-- C7: when the Hub broadcasts a frame payload to a registry of subscribers
with pairwise-distinct identities, every subscriber whose queue has room
receives the message in that same broadcast; a subscriber whose queue is
full (256 messages) is evicted — no client with its identity remains in the
registry — and every surviving queue holds at most 256 messages. -/
theorem C7_full_queue_evicts_only_that_subscriber (m : HubMsg) (cs : List Client)
    (hid : (cs.map Client.cid).Nodup) :
    (∀ c ∈ cs, c.send.length < queueCapacity →
      ({ c with send := c.send ++ [m] } : Client) ∈ hubBroadcast m cs) ∧
    (∀ c ∈ cs, c.send.length = queueCapacity →
      ∀ c' ∈ hubBroadcast m cs, c'.cid ≠ c.cid) ∧
    (∀ c' ∈ hubBroadcast m cs, c'.send.length ≤ queueCapacity) := by
  refine ⟨?_, ?_, ?_⟩
  · intro c hc hlt
    exact List.mem_filterMap.mpr ⟨c, hc, by simp [trySend, hlt]⟩
  · intro c hc hfull c' hc' heq
    obtain ⟨a, ha, hta⟩ := List.mem_filterMap.mp hc'
    have halt : a.send.length < queueCapacity := by
      by_contra hge
      simp [trySend, hge] at hta
    have hca : c' = { a with send := a.send ++ [m] } := by
      simp [trySend, halt] at hta
      exact hta.symm
    have hcid : a.cid = c.cid := by
      rw [hca] at heq
      exact heq
    have hac : a = c := List.inj_on_of_nodup_map hid ha hc hcid
    rw [hac] at halt
    omega
  · intro c' hc'
    obtain ⟨a, ha, hta⟩ := List.mem_filterMap.mp hc'
    have halt : a.send.length < queueCapacity := by
      by_contra hge
      simp [trySend, hge] at hta
    have hca : c' = { a with send := a.send ++ [m] } := by
      simp [trySend, halt] at hta
      exact hta.symm
    rw [hca]
    simp only [List.length_append, List.length_cons, List.length_nil]
    omega

/-- Witness for C7 at a concrete input: subscribers 1 and 3 have room,
subscriber 2's queue holds 256 messages; the broadcast delivers to 1 and 3
and evicts exactly subscriber 2. -/
theorem C7_full_queue_evicts_only_that_subscriber_witness :
    (clientsW.map Client.cid).Nodup ∧
    ((∀ c ∈ clientsW, c.send.length < queueCapacity →
        ({ c with send := c.send ++ [HubMsg.killedNotice] } : Client) ∈
          hubBroadcast HubMsg.killedNotice clientsW) ∧
      (∀ c ∈ clientsW, c.send.length = queueCapacity →
        ∀ c' ∈ hubBroadcast HubMsg.killedNotice clientsW, c'.cid ≠ c.cid) ∧
      (∀ c' ∈ hubBroadcast HubMsg.killedNotice clientsW,
        c'.send.length ≤ queueCapacity)) :=
  ⟨by decide,
    C7_full_queue_evicts_only_that_subscriber HubMsg.killedNotice clientsW (by decide)⟩

/-- C8 counterexample: the claim says calling `stop()` on an already-Stopped
Control Loop or Hub leaves the caller un-blocked.  In the code, once `Run`
has returned nothing ever receives on the unbuffered `Stop` channel again,
so the second stop request below is left forever pending (it appears in the
never-received remainder): its sender is blocked for good.  This holds for
the Control Loop and the Hub alike. -/
theorem C8_second_stop_caller_blocked :
    (coilRun cfg0 init0 [.tick (some 40) 0, .stopReq, .stopReq]).rest =
      [CoilEvent.stopReq] ∧
    (coilRun cfg0 init0 [.tick (some 40) 0, .stopReq, .stopReq]).state.running = false ∧
    (hubRun [] [.stopReq, .stopReq]).rest = [HubEvent.stopReq] := by
  refine ⟨?_, ?_, rfl⟩ <;>
    norm_num [coilRun, tickStep, stopStep, pidUpdate, clampOut, ratTrunc, MaxTempDiff,
      cfg0, init0, coilInit, rawU0, RunOutcome.withActs, RunOutcome.rest,
      RunOutcome.state]

/-- C8 (amended): calling `stop()` on an already-Stopped Control Loop or Hub
has no observable effect on the system — the final state and the complete
action trace (so in particular: no second handle release, no second queue
close, no panic) are exactly those of the run without the extra requests,
which are simply never received — but the caller of such a `stop()` blocks
forever on the unbuffered channel. -/
theorem C8_stop_after_stopped_is_silent :
    (∀ {σ : Type} (cfg : CoilCfg σ) (s st : CoilState σ) (a : List CoilAction)
        (es ex : List CoilEvent),
        coilRun cfg s es = .finished st a [] →
        coilRun cfg s (es ++ ex) = .finished st a ex) ∧
    (∀ (cs cs' : List Client) (a : List HubAction) (es ex : List HubEvent),
        hubRun cs es = .finished cs' a [] →
        hubRun cs (es ++ ex) = .finished cs' a ex) := by
  constructor
  · intro σ cfg s st a es ex h
    simpa using coilRun_unreceived_append cfg es s st a [] ex h
  · intro cs cs' a es ex h
    simpa using hubRun_unreceived_append es cs cs' a [] ex h

/-- Witness for C8's amended theorem at a concrete input: a run that stops
normally, then one more stop request — state and actions unchanged, the
extra request never received. -/
theorem C8_stop_after_stopped_is_silent_witness :
    (coilRun cfg0 init0 ([.tick (some 40) 0, .stopReq] ++ [.stopReq]) =
        .finished sW aW [CoilEvent.stopReq]) ∧
    (hubRun [] ([HubEvent.stopReq] ++ [HubEvent.stopReq]) =
        .finished [] [] [HubEvent.stopReq]) := by
  have hco : coilRun cfg0 init0 [.tick (some 40) 0, .stopReq] = .finished sW aW [] := by
    norm_num [coilRun, tickStep, stopStep, pidUpdate, clampOut, ratTrunc, MaxTempDiff,
      cfg0, init0, coilInit, rawU0, RunOutcome.withActs, sW, aW]
  have hhu : hubRun [] [HubEvent.stopReq] = .finished [] [] [] := rfl
  exact ⟨C8_stop_after_stopped_is_silent.1 cfg0 init0 sW aW _ _ hco,
    C8_stop_after_stopped_is_silent.2 [] [] [] _ _ hhu⟩

/-- C9: a sensor read decodes the raw bytes as text, strips trailing
non-numeric runes, parses the remainder as a number `raw`, and stores
exactly `0.45 × raw + 32`; it fails (returns a non-nil error) if and only
if the underlying interface read fails or the trimmed text does not parse. -/
theorem C9_sensor_decode (isNumber : Char → Bool)
    (parseFloat : List Char → Option ℚ) (st : TempState)
    (readBytes : Option (List Char)) (now : ℕ) :
    ((updateTemp isNumber parseFloat st readBytes now).2 = false ↔
      readBytes = none ∨
        ∃ bs, readBytes = some bs ∧
          parseFloat (trimRightFunc bs (trimTest isNumber)) = none) ∧
    (∀ bs t, readBytes = some bs →
      parseFloat (trimRightFunc bs (trimTest isNumber)) = some t →
      (updateTemp isNumber parseFloat st readBytes now).1.Temp =
        45 / 100 * t + 32) := by
  constructor
  · cases readBytes with
    | none => simp [updateTemp]
    | some bs =>
      cases h : parseFloat (trimRightFunc bs (trimTest isNumber)) with
      | none => simp [updateTemp, h]
      | some t => simp [updateTemp, h]
  · rintro bs t rfl hp
    simp only [updateTemp, hp]
    norm_num

/-- Witness for C9 at a concrete input: bytes "70mK" trim to "70", parse to
70, and the stored measurement is 0.45 × 70 + 32. -/
theorem C9_sensor_decode_witness :
    (some ['7', '0', 'm', 'K'] = some ['7', '0', 'm', 'K'] ∧
      parse0 (trimRightFunc ['7', '0', 'm', 'K'] (trimTest isNum0)) = some 70) ∧
    (updateTemp isNum0 parse0 ⟨0, 0⟩ (some ['7', '0', 'm', 'K']) 5).1.Temp =
      45 / 100 * 70 + 32 :=
  ⟨⟨rfl, rfl⟩,
    (C9_sensor_decode isNum0 parse0 ⟨0, 0⟩ (some ['7', '0', 'm', 'K']) 5).2
      ['7', '0', 'm', 'K'] 70 rfl rfl⟩

/-- C10: when a sensor sample fails — the underlying read errors or the
trimmed text does not parse — the stored measurement state (`Temp`,
`LastUpdated`) is exactly what it was before the failed read. -/
theorem C10_failed_sample_preserves_state (isNumber : Char → Bool)
    (parseFloat : List Char → Option ℚ) (st : TempState)
    (readBytes : Option (List Char)) (now : ℕ)
    (hfail : (updateTemp isNumber parseFloat st readBytes now).2 = false) :
    (updateTemp isNumber parseFloat st readBytes now).1 = st := by
  cases readBytes with
  | none => rfl
  | some bs =>
    cases h : parseFloat (trimRightFunc bs (trimTest isNumber)) with
    | none => simp [updateTemp, h]
    | some t => simp [updateTemp, h] at hfail

/-- Witness for C10 at a concrete input: bytes "x" fail to parse and the
state ⟨3, 7⟩ is preserved. -/
theorem C10_failed_sample_preserves_state_witness :
    (updateTemp isNum0 parse0 ⟨3, 7⟩ (some ['x']) 9).2 = false ∧
    (updateTemp isNum0 parse0 ⟨3, 7⟩ (some ['x']) 9).1 = ⟨3, 7⟩ :=
  ⟨rfl, C10_failed_sample_preserves_state isNum0 parse0 ⟨3, 7⟩ (some ['x']) 9 rfl⟩
